import Mathlib

/-!
# Verification of the Cat's Cradle dialogue engine (`user_interaction.py`)

Shallow embedding of the dialogue selection engine and catalog loader from
`user_interaction.py`, together with proofs of the specified properties.

Modelling conventions:
* Python `int` counters become `Nat` (they start at 0 and only grow).
* Python `dict[str, ...]` becomes an association list `List (String × ...)`
  with first-match lookup; the Python assignment `d[k] = v` replaces the
  value in place when the key is present and appends otherwise, which
  preserves insertion order exactly like a Python dict.
* Methods that mutate `self` become functions from the old state to the
  new state; methods that can raise become `Option`/`Except` values, the
  error constructor recording which Python exception is raised.
* The file system is abstracted: a CSV source file is its filename stem
  together with the list of its rows (each row a list of column strings),
  which is what `csv.reader` yields.
-/

namespace CatsCradle

set_option maxHeartbeats 1000000

/-- The `_CountedMessage` dataclass: a message string together with the
number of times it has been shown (`occurrences`, starting at 0). -/
structure _CountedMessage where
  occurrences : Nat
  message : String
deriving DecidableEq, Repr

/-- Modelled from the spec: the `Context` enum from the missing
`constants.py`, whose four members `ENTER`, `INVESTIGATE`, `PREVIEW`,
`EXIT` are the four situational triggers used by `get_random_message`. -/
inductive Context where
  | ENTER
  | INVESTIGATE
  | PREVIEW
  | EXIT
deriving DecidableEq, Repr

/-- First-match lookup in an association list: the embedding of Python
dict subscripting `d[k]`; `none` models a `KeyError`. -/
def dictGet {α : Type} (d : List (String × α)) (k : String) : Option α :=
  match d with
  | [] => none
  | p :: rest => if p.1 = k then some p.2 else dictGet rest k

/-- The key sequence of an association list, in insertion order (the
embedding of Python `list(d.keys())`). -/
def dictKeys {α : Type} (d : List (String × α)) : List String :=
  d.map Prod.fst

/-- The embedding of the Python dict assignment `d[k] = v`: replace the
value in place if `k` is already a key, otherwise append `(k, v)`. -/
def dictInsert {α : Type} (d : List (String × α)) (k : String) (v : α) : List (String × α) :=
  if (dictKeys d).contains k then
    d.map (fun p => if p.1 = k then (k, v) else p)
  else
    d ++ [(k, v)]

/-- The `DialogueGenerator` state: four mappings from biome name to the
list of counted messages for that context. -/
structure DialogueGenerator where
  _entry : List (String × List _CountedMessage)
  _investigate : List (String × List _CountedMessage)
  _preview : List (String × List _CountedMessage)
  _exit : List (String × List _CountedMessage)
deriving DecidableEq, Repr

/-- `DialogueGenerator._get_initial_messages`: wrap each raw string into a
`_CountedMessage` with `occurrences = 0`. -/
def _get_initial_messages (messages : List String) : List _CountedMessage :=
  messages.map (fun message => ⟨0, message⟩)

/-- `DialogueGenerator.__init__`: build the four counted mappings from the
four raw-string mappings via `_get_initial_messages` (the Python dict
comprehension maps over the entries of each input dict, keeping keys). -/
def DialogueGenerator.init (entry investigate preview exit :
    List (String × List String)) : DialogueGenerator where
  _entry := entry.map (fun p => (p.1, _get_initial_messages p.2))
  _investigate := investigate.map (fun p => (p.1, _get_initial_messages p.2))
  _preview := preview.map (fun p => (p.1, _get_initial_messages p.2))
  _exit := exit.map (fun p => (p.1, _get_initial_messages p.2))

/-- The `if context == ENTER / elif INVESTIGATE / elif PREVIEW / else`
chain of `get_random_message`, selecting which of the four mappings the
query reads (the `else` branch is `_exit`). -/
def ctxDict (g : DialogueGenerator) : Context → List (String × List _CountedMessage)
  | Context.ENTER => g._entry
  | Context.INVESTIGATE => g._investigate
  | Context.PREVIEW => g._preview
  | Context.EXIT => g._exit

/-- Writing back the (mutated) mapping for the given context; the other
three mappings are untouched. -/
def setCtxDict (g : DialogueGenerator) (c : Context)
    (d : List (String × List _CountedMessage)) : DialogueGenerator :=
  match c with
  | Context.ENTER => { g with _entry := d }
  | Context.INVESTIGATE => { g with _investigate := d }
  | Context.PREVIEW => { g with _preview := d }
  | Context.EXIT => { g with _exit := d }

/-- `DialogueGenerator._get_random_message_helper`: Python's
`min(messages, key=lambda m: m.occurrences)` returns the first element
attaining the minimum `occurrences` (later elements replace the running
best only on a strict decrease), that element's counter is incremented in
place, and its message is returned. The embedding returns the message and
the updated list; a head is selected exactly when no later element has a
strictly smaller counter. `none` models the `ValueError` that `min`
raises on an empty list. -/
def _get_random_message_helper : List _CountedMessage → Option (String × List _CountedMessage)
  | [] => none
  | m :: rest =>
    if rest.all (fun x => m.occurrences ≤ x.occurrences) then
      some (m.message, ⟨m.occurrences + 1, m.message⟩ :: rest)
    else
      match _get_random_message_helper rest with
      | some (s, rest') => some (s, m :: rest')
      | none => none

/-- The Python exceptions a query can raise: `KeyError` from the dict
lookup of an unknown biome, and `ValueError` from `min()` on an empty
message list. -/
inductive DialogueError where
  | unknownLocation
  | emptyPool
deriving DecidableEq, Repr

/-- `DialogueGenerator.get_random_message`: look up the biome in the
mapping selected by the context and delegate to the helper. The `Biome`
argument is embedded as the lowercase location string that
`str(biome)[6:].lower()` computes from the enum member. The result pairs
the returned text (or the raised exception) with the post-call state; on
either exception the state is the unmodified `g`, since in the source both
raises happen before any mutation. -/
def get_random_message (g : DialogueGenerator) (biome : String) (context : Context) :
    Except DialogueError String × DialogueGenerator :=
  match dictGet (ctxDict g context) biome with
  | none => (Except.error DialogueError.unknownLocation, g)
  | some pool =>
    match _get_random_message_helper pool with
    | none => (Except.error DialogueError.emptyPool, g)
    | some (s, pool') =>
        (Except.ok s, setCtxDict g context (dictInsert (ctxDict g context) biome pool'))

/-- A CSV source file, abstracted to its filename stem (`Path(p).stem`,
the location id) and the list of rows that `csv.reader` yields. -/
structure SourceFile where
  stem : String
  rows : List (List String)
deriving DecidableEq, Repr

/-- The Python exceptions loading can raise: `StopIteration` from
`next(reader)` on a source with no rows at all, and `IndexError` from
`line[i]` on a data row with fewer than 4 columns. -/
inductive LoadError where
  | stopIteration
  | indexError
deriving DecidableEq, Repr

/-- The row loop of `_read_dialogue`: for every data row append columns
0–3 to the four per-context lists, in row order; a row with fewer than 4
columns raises `IndexError`. -/
def readRows : List (List String) →
    Except LoadError (List String × List String × List String × List String)
  | [] => Except.ok ([], [], [], [])
  | line :: rest =>
    match line.get? 0, line.get? 1, line.get? 2, line.get? 3 with
    | some c0, some c1, some c2, some c3 =>
      match readRows rest with
      | Except.ok (l0, l1, l2, l3) => Except.ok (c0 :: l0, c1 :: l1, c2 :: l2, c3 :: l3)
      | Except.error e => Except.error e
    | _, _, _, _ => Except.error LoadError.indexError

/-- `_read_dialogue`: `next(reader)` discards the header row (raising
`StopIteration` when the source has no rows at all), then the remaining
rows are split into the four per-context string lists. -/
def _read_dialogue (rows : List (List String)) :
    Except LoadError (List String × List String × List String × List String) :=
  match rows with
  | [] => Except.error LoadError.stopIteration
  | _ :: body => readRows body

/-- The file loop of `load_dialogue_generator`, threading the four
accumulating dicts `dialogues_so_far`: each source's four lists are
stored under its stem in all four dicts. -/
def loadAcc : List SourceFile →
    List (String × List String) → List (String × List String) →
    List (String × List String) → List (String × List String) →
    Except LoadError (List (String × List String) × List (String × List String) ×
      List (String × List String) × List (String × List String))
  | [], d0, d1, d2, d3 => Except.ok (d0, d1, d2, d3)
  | f :: rest, d0, d1, d2, d3 =>
    match _read_dialogue f.rows with
    | Except.error e => Except.error e
    | Except.ok (l0, l1, l2, l3) =>
        loadAcc rest (dictInsert d0 f.stem l0) (dictInsert d1 f.stem l1)
          (dictInsert d2 f.stem l2) (dictInsert d3 f.stem l3)

/-- `load_dialogue_generator`: read every source file, keying the four raw
dicts by each file's stem, then construct the generator. -/
def load_dialogue_generator (files : List SourceFile) :
    Except LoadError DialogueGenerator :=
  match loadAcc files [] [] [] [] with
  | Except.error e => Except.error e
  | Except.ok (d0, d1, d2, d3) => Except.ok (DialogueGenerator.init d0 d1 d2 d3)

/-- The `Dialogue` class: optional title, message and image path, exactly
as `__init__` stores them (it accepts `None` and empty strings). -/
structure Dialogue where
  title : Option String
  message : Option String
  image_path : Option String
deriving DecidableEq, Repr

/-- `Dialogue._is_pointer`: `self.message[0] == "@"`. Subscripting raises
`TypeError` when `message` is `None` and `IndexError` when it is the
empty string, both modelled by `none`; otherwise the first character is
compared with `"@"`. -/
def Dialogue._is_pointer (d : Dialogue) : Option Bool :=
  match d.message with
  | none => none
  | some s =>
    match s.data with
    | [] => none
    | c :: _ => some (decide (c = '@'))

/-- One query step on a single pool, as driver for the balance claims:
the pool after a successful `_get_random_message_helper` call, the pool
itself when the call fails (an exception leaves the pool unchanged). -/
def stepPool (pool : List _CountedMessage) : List _CountedMessage :=
  match _get_random_message_helper pool with
  | some (_, pool') => pool'
  | none => pool

/-- `n` successive query steps on a single pool. -/
def selectN : Nat → List _CountedMessage → List _CountedMessage
  | 0, pool => pool
  | n + 1, pool => selectN n (stepPool pool)

/-- The shape invariant maintained by repeated selection on one pool: for
some `t`, a (possibly empty) prefix of entries already shown `t + 1`
times is followed by a non-empty suffix of entries shown `t` times. -/
def BalancedPool (pool : List _CountedMessage) : Prop :=
  ∃ t : Nat, ∃ A B : List _CountedMessage,
    pool = A ++ B ∧ B ≠ [] ∧
    (∀ m ∈ A, m.occurrences = t + 1) ∧ (∀ m ∈ B, m.occurrences = t)

/-- The cross-context key invariant: the key sequences of the
investigate, preview and exit mappings all coincide with that of the
entry mapping (hence a location is a key of one mapping iff of all
four). -/
def SameKeys (g : DialogueGenerator) : Prop :=
  dictKeys (ctxDict g Context.INVESTIGATE) = dictKeys (ctxDict g Context.ENTER) ∧
  dictKeys (ctxDict g Context.PREVIEW) = dictKeys (ctxDict g Context.ENTER) ∧
  dictKeys (ctxDict g Context.EXIT) = dictKeys (ctxDict g Context.ENTER)

/-! ## General lemmas about the selection helper -/

/-- The helper fails exactly on the empty pool (Python `min` raises
`ValueError` there and only there). -/
theorem helper_none_iff (pool : List _CountedMessage) :
    _get_random_message_helper pool = none ↔ pool = [] := by
  induction pool with
  | nil => simp [_get_random_message_helper]
  | cons m rest ih =>
    simp only [_get_random_message_helper]
    constructor
    · intro h
      exfalso
      split at h
      · exact Option.noConfusion h
      · cases hrec : _get_random_message_helper rest with
        | none =>
          rename_i hall
          have : rest = [] := ih.mp hrec
          subst this
          exact hall (by simp)
        | some p => rw [hrec] at h; exact Option.noConfusion h
    · intro h; exact List.noConfusion h

/-- Full characterisation of one helper call on a non-empty pool: it
selects an index `j`, increments exactly that entry, returns its message,
`j` attains the minimum `occurrences`, and every earlier index has a
strictly larger count (Python `min` keeps the first minimum). -/
theorem helper_spec (pool : List _CountedMessage) (hne : pool ≠ []) :
    ∃ j, ∃ hj : j < pool.length,
      _get_random_message_helper pool =
        some ((pool.get ⟨j, hj⟩).message,
          pool.set j ⟨(pool.get ⟨j, hj⟩).occurrences + 1, (pool.get ⟨j, hj⟩).message⟩) ∧
      (∀ i, ∀ hi : i < pool.length,
        (pool.get ⟨j, hj⟩).occurrences ≤ (pool.get ⟨i, hi⟩).occurrences) ∧
      (∀ i, i < j → ∀ hi : i < pool.length,
        (pool.get ⟨j, hj⟩).occurrences < (pool.get ⟨i, hi⟩).occurrences) := by
  induction pool with
  | nil => exact absurd rfl hne
  | cons m rest ih =>
    by_cases hall : ∀ x ∈ rest, m.occurrences ≤ x.occurrences
    · refine ⟨0, by simp, ?_, ?_, ?_⟩
      · rw [_get_random_message_helper]
        rw [if_pos (by simpa [List.all_eq_true] using hall)]
        rfl
      · intro i hi
        cases i with
        | zero => exact le_refl _
        | succ i' =>
          simp only [List.get_cons_succ]
          exact hall _ (rest.get_mem _ _)
      · intro i hlt; omega
    · have hrestne : rest ≠ [] := by
        intro h; subst h; exact hall (by simp)
      obtain ⟨x, hxmem, hxlt⟩ : ∃ x ∈ rest, x.occurrences < m.occurrences := by
        push_neg at hall; simpa using hall
      obtain ⟨⟨ix, hix⟩, hxeq⟩ := List.mem_iff_get.mp hxmem
      obtain ⟨j', hj', heq, hmin, hfirst⟩ := ih hrestne
      have hjlt : (rest.get ⟨j', hj'⟩).occurrences < m.occurrences := by
        calc (rest.get ⟨j', hj'⟩).occurrences ≤ x.occurrences := by
              rw [← hxeq]; exact hmin ix hix
          _ < m.occurrences := hxlt
      refine ⟨j' + 1, by simpa using Nat.succ_lt_succ hj', ?_, ?_, ?_⟩
      · rw [_get_random_message_helper]
        rw [if_neg (by simpa [List.all_eq_true] using hall)]
        rw [heq]
        simp [List.get_cons_succ, List.set_cons_succ]
      · intro i hi
        cases i with
        | zero => simpa using le_of_lt hjlt
        | succ i' =>
          simp only [List.get_cons_succ]
          exact hmin i' (by simpa using hi)
      · intro i hilt hi
        cases i with
        | zero => simpa using hjlt
        | succ i' =>
          simp only [List.get_cons_succ]
          exact hfirst i' (by omega) (by simpa using hi)

/-- On a pool that is a block of `t + 1`-count entries followed by a
non-empty block of `t`-count entries, the helper selects the head of the
second block. -/
theorem helper_append (t : Nat) (A : List _CountedMessage) (b : _CountedMessage)
    (B : List _CountedMessage) (hA : ∀ m ∈ A, m.occurrences = t + 1)
    (hb : b.occurrences = t) (hB : ∀ m ∈ B, m.occurrences = t) :
    _get_random_message_helper (A ++ b :: B) =
      some (b.message, A ++ (⟨t + 1, b.message⟩ : _CountedMessage) :: B) := by
  induction A with
  | nil =>
    simp only [List.nil_append]
    rw [_get_random_message_helper, if_pos]
    · rw [hb]
    · simp only [List.all_eq_true, decide_eq_true_eq]
      intro x hx
      rw [hb, hB x hx]
  | cons a A' ih =>
    have hA' : ∀ m ∈ A', m.occurrences = t + 1 := fun m hm => hA m (List.mem_cons_of_mem _ hm)
    have ha : a.occurrences = t + 1 := hA a (List.mem_cons_self _ _)
    simp only [List.cons_append]
    rw [_get_random_message_helper, if_neg]
    · rw [ih hA']
    · intro hcontra
      simp only [List.all_eq_true, decide_eq_true_eq] at hcontra
      have hab := hcontra b (by simp)
      omega

/-- A pool of entries all at occurrence count 0 is balanced. -/
theorem balanced_init (pool : List _CountedMessage) (hne : pool ≠ [])
    (h0 : ∀ m ∈ pool, m.occurrences = 0) : BalancedPool pool :=
  ⟨0, [], pool, by simp, hne, by simp, h0⟩

/-- One selection step preserves the balanced shape. -/
theorem balanced_step (pool : List _CountedMessage) (h : BalancedPool pool) :
    BalancedPool (stepPool pool) := by
  obtain ⟨t, A, B, hsplit, hBne, hA, hB⟩ := h
  cases B with
  | nil => exact absurd rfl hBne
  | cons b B' =>
    have hb : b.occurrences = t := hB b (List.mem_cons_self _ _)
    have hB' : ∀ m ∈ B', m.occurrences = t := fun m hm => hB m (List.mem_cons_of_mem _ hm)
    have hstep : stepPool pool = A ++ (⟨t + 1, b.message⟩ : _CountedMessage) :: B' := by
      rw [stepPool, hsplit, helper_append t A b B' hA hb hB']
    rw [hstep]
    cases B' with
    | nil =>
      exact ⟨t + 1, [], A ++ [⟨t + 1, b.message⟩], by simp, by simp, by simp,
        by intro m hm; rcases List.mem_append.mp hm with h' | h'
           · exact hA m h'
           · simp at h'; subst h'; rfl⟩
    | cons b2 B'' =>
      refine ⟨t, A ++ [⟨t + 1, b.message⟩], b2 :: B'', by simp, by simp, ?_, hB'⟩
      intro m hm
      rcases List.mem_append.mp hm with h' | h'
      · exact hA m h'
      · simp at h'; subst h'; rfl

/-- Every iterate of the selection step keeps the pool balanced. -/
theorem balanced_selectN (n : Nat) (pool : List _CountedMessage)
    (h : BalancedPool pool) : BalancedPool (selectN n pool) := by
  induction n generalizing pool with
  | zero => exact h
  | succ n' ih => exact ih (stepPool pool) (balanced_step pool h)

/-- In a balanced pool every occurrence count is `t` or `t + 1`. -/
theorem balanced_occ_cases (pool : List _CountedMessage) (h : BalancedPool pool) :
    ∃ t : Nat, ∀ m ∈ pool, m.occurrences = t ∨ m.occurrences = t + 1 := by
  obtain ⟨t, A, B, hsplit, _, hA, hB⟩ := h
  refine ⟨t, ?_⟩
  intro m hm
  rw [hsplit] at hm
  rcases List.mem_append.mp hm with h' | h'
  · exact Or.inr (hA m h')
  · exact Or.inl (hB m h')

/-- Specification of a successful helper call: message and updated pool
come from incrementing exactly the selected entry. -/
theorem helper_some_spec (pool pool' : List _CountedMessage) (s : String)
    (h : _get_random_message_helper pool = some (s, pool')) :
    ∃ j, ∃ hj : j < pool.length,
      s = (pool.get ⟨j, hj⟩).message ∧
      pool' = pool.set j ⟨(pool.get ⟨j, hj⟩).occurrences + 1, (pool.get ⟨j, hj⟩).message⟩ := by
  have hne : pool ≠ [] := by
    intro hnil
    subst hnil
    rw [(helper_none_iff []).mpr rfl] at h
    exact Option.noConfusion h
  obtain ⟨j, hj, heq, -, -⟩ := helper_spec pool hne
  rw [heq] at h
  have hpair := Option.some.inj h
  exact ⟨j, hj, congrArg Prod.fst hpair |>.symm, congrArg Prod.snd hpair |>.symm⟩

/-! ## Lemmas about the dict embedding -/

/-- Lookup fails exactly on keys not stored in the dict. -/
theorem dictGet_eq_none_iff {α : Type} (d : List (String × α)) (k : String) :
    dictGet d k = none ↔ k ∉ dictKeys d := by
  induction d with
  | nil => simp [dictGet, dictKeys]
  | cons p rest ih =>
    by_cases hpk : p.1 = k
    · simp [dictGet, dictKeys, hpk]
    · have hkp : ¬k = p.1 := fun h => hpk h.symm
      simp [dictGet, dictKeys, hpk, hkp, ih]

/-- A successful lookup means the key is stored. -/
theorem mem_dictKeys_of_dictGet {α : Type} (d : List (String × α)) (k : String)
    (v : α) (h : dictGet d k = some v) : k ∈ dictKeys d := by
  by_contra hc
  rw [(dictGet_eq_none_iff d k).mpr hc] at h
  exact Option.noConfusion h

/-- In-place replacement of the value at a stored key succeeds. -/
theorem lookup_replace_self {α : Type} (d : List (String × α)) (k : String) (v : α)
    (hc : k ∈ dictKeys d) :
    dictGet (d.map (fun p => if p.1 = k then (k, v) else p)) k = some v := by
  induction d with
  | nil => simp [dictKeys] at hc
  | cons p rest ih =>
    by_cases hpk : p.1 = k
    · simp [dictGet, hpk]
    · have hc' : k ∈ dictKeys rest := by
        simp only [dictKeys, List.map_cons, List.mem_cons] at hc
        rcases hc with h | h
        · exact absurd h.symm hpk
        · exact h
      simp [dictGet, hpk, ih hc']

/-- In-place replacement at key `k` leaves lookups at other keys alone. -/
theorem lookup_replace_ne {α : Type} (d : List (String × α)) (k : String) (v : α)
    (b : String) (hb : b ≠ k) :
    dictGet (d.map (fun p => if p.1 = k then (k, v) else p)) b = dictGet d b := by
  induction d with
  | nil => rfl
  | cons p rest ih =>
    by_cases hpk : p.1 = k
    · have : ¬k = b := fun h => hb h.symm
      simp [dictGet, hpk, this, ih]
    · simp only [List.map_cons, if_neg hpk]
      rw [dictGet, dictGet, ih]

/-- Appending a fresh key: lookup at that key finds the new value. -/
theorem lookup_append_self {α : Type} (d : List (String × α)) (k : String) (v : α) :
    dictGet (d ++ [(k, v)]) k = some ((dictGet d k).getD v) := by
  induction d with
  | nil => simp [dictGet]
  | cons p rest ih =>
    by_cases hpk : p.1 = k
    · simp [dictGet, hpk]
    · simp [dictGet, hpk, ih]

/-- Appending a pair keyed `k` leaves lookups at other keys alone. -/
theorem lookup_append_ne {α : Type} (d : List (String × α)) (k : String) (v : α)
    (b : String) (hb : b ≠ k) :
    dictGet (d ++ [(k, v)]) b = dictGet d b := by
  induction d with
  | nil =>
    have : ¬k = b := fun h => hb h.symm
    simp [dictGet, this]
  | cons p rest ih =>
    by_cases hpb : p.1 = b
    · simp [dictGet, hpb]
    · simp [dictGet, hpb, ih]

/-- The dict assignment `d[k] = v` makes lookup at `k` return `v`. -/
theorem dictGet_dictInsert_self {α : Type} (d : List (String × α)) (k : String) (v : α) :
    dictGet (dictInsert d k v) k = some v := by
  rw [dictInsert]
  by_cases hc : k ∈ dictKeys d
  · rw [if_pos (by simpa using hc)]
    exact lookup_replace_self d k v hc
  · rw [if_neg (by simpa using hc)]
    rw [lookup_append_self, (dictGet_eq_none_iff d k).mpr hc]
    rfl

/-- The dict assignment `d[k] = v` leaves lookups at other keys alone. -/
theorem dictGet_dictInsert_ne {α : Type} (d : List (String × α)) (k : String) (v : α)
    (b : String) (hb : b ≠ k) :
    dictGet (dictInsert d k v) b = dictGet d b := by
  rw [dictInsert]
  split
  · exact lookup_replace_ne d k v b hb
  · exact lookup_append_ne d k v b hb

/-- In-place replacement does not change the key sequence. -/
theorem dictKeys_replace {α : Type} (d : List (String × α)) (k : String) (v : α) :
    dictKeys (d.map (fun p => if p.1 = k then (k, v) else p)) = dictKeys d := by
  simp only [dictKeys, List.map_map]
  apply List.map_congr_left
  intro p _
  by_cases hpk : p.1 = k
  · simp [Function.comp, hpk]
  · simp [Function.comp, hpk]

/-- The key sequence after a dict assignment: unchanged when the key is
already stored, extended by the key otherwise. -/
theorem dictKeys_dictInsert {α : Type} (d : List (String × α)) (k : String) (v : α) :
    dictKeys (dictInsert d k v) =
      if k ∈ dictKeys d then dictKeys d else dictKeys d ++ [k] := by
  rw [dictInsert]
  by_cases hc : k ∈ dictKeys d
  · rw [if_pos (by simpa using hc), if_pos hc]
    exact dictKeys_replace d k v
  · rw [if_neg (by simpa using hc), if_neg hc]
    simp [dictKeys]

/-! ## Lemmas about the four context mappings -/

/-- Reading back the mapping just written for a context. -/
theorem ctxDict_setCtxDict_self (g : DialogueGenerator) (c : Context)
    (d : List (String × List _CountedMessage)) :
    ctxDict (setCtxDict g c d) c = d := by
  cases c <;> rfl

/-- Writing one context's mapping leaves the other three alone. -/
theorem ctxDict_setCtxDict_ne (g : DialogueGenerator) (c c' : Context)
    (d : List (String × List _CountedMessage)) (h : c' ≠ c) :
    ctxDict (setCtxDict g c d) c' = ctxDict g c' := by
  cases c <;> cases c' <;> first | rfl | exact absurd rfl h

/-! ## Claim theorems -/

/-- **C1** (Balance invariant): for a pool of entries all starting at
occurrence count 0, after any finite number `n` of selection queries
restricted to that pool, the maximum occurrences value minus the minimum
occurrences value over the pool is at most 1. -/
theorem balance_invariant (pool : List _CountedMessage) (hne : pool ≠ [])
    (h0 : ∀ m ∈ pool, m.occurrences = 0) (n : Nat)
    (hlen : 0 < ((selectN n pool).map _CountedMessage.occurrences).length) :
    ((selectN n pool).map _CountedMessage.occurrences).maximum_of_length_pos hlen -
      ((selectN n pool).map _CountedMessage.occurrences).minimum_of_length_pos hlen ≤ 1 := by
  obtain ⟨t, ht⟩ := balanced_occ_cases _ (balanced_selectN n pool (balanced_init pool hne h0))
  have hmax := List.maximum_of_length_pos_mem hlen
  have hmin := List.minimum_of_length_pos_mem hlen
  rw [List.mem_map] at hmax hmin
  obtain ⟨mx, hmx, hmxe⟩ := hmax
  obtain ⟨mn, hmn, hmne⟩ := hmin
  rw [← hmxe, ← hmne]
  rcases ht mx hmx with h1 | h1 <;> rcases ht mn hmn with h2 | h2 <;> omega

/-- Concrete instance of the balance invariant: a two-entry pool after
three queries. -/
theorem balance_invariant_witness :
    ((selectN 3 [⟨0, "a"⟩, ⟨0, "b"⟩]).map _CountedMessage.occurrences).maximum_of_length_pos
        (by decide) -
      ((selectN 3 [⟨0, "a"⟩, ⟨0, "b"⟩]).map _CountedMessage.occurrences).minimum_of_length_pos
        (by decide) ≤ 1 :=
  balance_invariant [⟨0, "a"⟩, ⟨0, "b"⟩] (by decide) (by decide) 3 (by decide)

/-- **C4** (Counter increment and unmodified return): every successful
helper call increments the `occurrences` field of exactly the selected
entry by exactly 1, returns that entry's stored message unchanged, and
no entry's counter ever decreases across the call. -/
theorem counter_increment (pool pool' : List _CountedMessage) (s : String)
    (h : _get_random_message_helper pool = some (s, pool')) :
    pool'.length = pool.length ∧
    ∃ j, ∃ hj : j < pool.length,
      s = (pool.get ⟨j, hj⟩).message ∧
      (∀ hj' : j < pool'.length,
        (pool'.get ⟨j, hj'⟩).occurrences = (pool.get ⟨j, hj⟩).occurrences + 1 ∧
        (pool'.get ⟨j, hj'⟩).message = (pool.get ⟨j, hj⟩).message) ∧
      (∀ i, i ≠ j → ∀ hi : i < pool.length, ∀ hi' : i < pool'.length,
        pool'.get ⟨i, hi'⟩ = pool.get ⟨i, hi⟩) ∧
      (∀ i, ∀ hi : i < pool.length, ∀ hi' : i < pool'.length,
        (pool.get ⟨i, hi⟩).occurrences ≤ (pool'.get ⟨i, hi'⟩).occurrences) := by
  obtain ⟨j, hj, hs, hset⟩ := helper_some_spec pool pool' s h
  subst hset
  refine ⟨List.length_set pool _ _, j, hj, hs, ?_, ?_, ?_⟩
  · intro hj'
    constructor
    · simp [List.get_eq_getElem, List.getElem_set_self]
    · simp [List.get_eq_getElem, List.getElem_set_self]
  · intro i hij hi hi'
    simp [List.get_eq_getElem, List.getElem_set_ne (fun hh => hij hh.symm)]
  · intro i hi hi'
    by_cases hij : i = j
    · subst hij
      simp [List.get_eq_getElem, List.getElem_set_self]
    · simp [List.get_eq_getElem, List.getElem_set_ne (fun hh => hij hh.symm)]

/-- Concrete instance of the counter-increment specification: the pool
`[⟨1, "a"⟩, ⟨0, "b"⟩]` selects `"b"` and becomes `[⟨1, "a"⟩, ⟨1, "b"⟩]`. -/
theorem counter_increment_witness :
    ([⟨1, "a"⟩, ⟨1, "b"⟩] : List _CountedMessage).length =
      ([⟨1, "a"⟩, ⟨0, "b"⟩] : List _CountedMessage).length ∧
    ∃ j, ∃ hj : j < ([⟨1, "a"⟩, ⟨0, "b"⟩] : List _CountedMessage).length,
      "b" = (([⟨1, "a"⟩, ⟨0, "b"⟩] : List _CountedMessage).get ⟨j, hj⟩).message ∧
      (∀ hj' : j < ([⟨1, "a"⟩, ⟨1, "b"⟩] : List _CountedMessage).length,
        (([⟨1, "a"⟩, ⟨1, "b"⟩] : List _CountedMessage).get ⟨j, hj'⟩).occurrences =
          (([⟨1, "a"⟩, ⟨0, "b"⟩] : List _CountedMessage).get ⟨j, hj⟩).occurrences + 1 ∧
        (([⟨1, "a"⟩, ⟨1, "b"⟩] : List _CountedMessage).get ⟨j, hj'⟩).message =
          (([⟨1, "a"⟩, ⟨0, "b"⟩] : List _CountedMessage).get ⟨j, hj⟩).message) ∧
      (∀ i, i ≠ j → ∀ hi : i < ([⟨1, "a"⟩, ⟨0, "b"⟩] : List _CountedMessage).length,
        ∀ hi' : i < ([⟨1, "a"⟩, ⟨1, "b"⟩] : List _CountedMessage).length,
        ([⟨1, "a"⟩, ⟨1, "b"⟩] : List _CountedMessage).get ⟨i, hi'⟩ =
          ([⟨1, "a"⟩, ⟨0, "b"⟩] : List _CountedMessage).get ⟨i, hi⟩) ∧
      (∀ i, ∀ hi : i < ([⟨1, "a"⟩, ⟨0, "b"⟩] : List _CountedMessage).length,
        ∀ hi' : i < ([⟨1, "a"⟩, ⟨1, "b"⟩] : List _CountedMessage).length,
        (([⟨1, "a"⟩, ⟨0, "b"⟩] : List _CountedMessage).get ⟨i, hi⟩).occurrences ≤
          (([⟨1, "a"⟩, ⟨1, "b"⟩] : List _CountedMessage).get ⟨i, hi'⟩).occurrences) :=
  counter_increment [⟨1, "a"⟩, ⟨0, "b"⟩] [⟨1, "a"⟩, ⟨1, "b"⟩] "b" (by decide)

/-- **C5** (Query error conditions): a query for a location id absent
from the requested context's mapping returns the unknown-location error
(`KeyError`), and a query whose resolved entry list is empty returns the
empty-pool error (`ValueError`); in both cases the error is surfaced to
the caller, with no default text and no state change. -/
theorem query_error_conditions :
    (∀ (g : DialogueGenerator) (biome : String) (c : Context),
      dictGet (ctxDict g c) biome = none →
      get_random_message g biome c = (Except.error DialogueError.unknownLocation, g)) ∧
    (∀ (g : DialogueGenerator) (biome : String) (c : Context),
      dictGet (ctxDict g c) biome = some [] →
      get_random_message g biome c = (Except.error DialogueError.emptyPool, g)) := by
  constructor
  · intro g biome c h
    simp [get_random_message, h]
  · intro g biome c h
    simp [get_random_message, h, _get_random_message_helper]

/-- Concrete instances of the query error conditions on a one-location
catalog with an empty pool. -/
theorem query_error_conditions_witness :
    get_random_message ⟨[("cave", [])], [("cave", [])], [("cave", [])], [("cave", [])]⟩
      "unknown" Context.ENTER =
      (Except.error DialogueError.unknownLocation,
        ⟨[("cave", [])], [("cave", [])], [("cave", [])], [("cave", [])]⟩) ∧
    get_random_message ⟨[("cave", [])], [("cave", [])], [("cave", [])], [("cave", [])]⟩
      "cave" Context.ENTER =
      (Except.error DialogueError.emptyPool,
        ⟨[("cave", [])], [("cave", [])], [("cave", [])], [("cave", [])]⟩) :=
  ⟨query_error_conditions.1 _ "unknown" Context.ENTER rfl,
   query_error_conditions.2 _ "cave" Context.ENTER rfl⟩

/-- **C10** (Error atomicity of queries): whenever a query fails, the
post-call state is exactly the pre-call state — no counter is
incremented and no mapping is changed on a failing query. -/
theorem error_atomicity (g : DialogueGenerator) (biome : String) (c : Context)
    (e : DialogueError) (g' : DialogueGenerator)
    (h : get_random_message g biome c = (Except.error e, g')) : g' = g := by
  cases hd : dictGet (ctxDict g c) biome with
  | none =>
    simp only [get_random_message, hd, Prod.mk.injEq] at h
    exact h.2.symm
  | some pool =>
    cases hh : _get_random_message_helper pool with
    | none =>
      simp only [get_random_message, hd, hh, Prod.mk.injEq] at h
      exact h.2.symm
    | some pr =>
      obtain ⟨s, pool2⟩ := pr
      simp only [get_random_message, hd, hh, Prod.mk.injEq] at h
      exact absurd h.1 (by simp)

/-- Concrete instance of error atomicity: a failing query on a
one-location catalog leaves the catalog unchanged. -/
theorem error_atomicity_witness :
    (⟨[("cave", [⟨0, "m"⟩])], [("cave", [⟨0, "m"⟩])], [("cave", [⟨0, "m"⟩])],
        [("cave", [⟨0, "m"⟩])]⟩ : DialogueGenerator) =
      ⟨[("cave", [⟨0, "m"⟩])], [("cave", [⟨0, "m"⟩])], [("cave", [⟨0, "m"⟩])],
        [("cave", [⟨0, "m"⟩])]⟩ :=
  error_atomicity _ "unknown" Context.ENTER DialogueError.unknownLocation _ rfl

/-- **C9** (Partiality of the pointer predicate): `Dialogue._is_pointer`
fails (raises) when the message is `None` or empty, and otherwise
returns exactly whether the first character is `"@"` — even though the
`Dialogue` constructor accepts `None` and empty messages. -/
theorem is_pointer_domain (t ip : Option String) :
    (Dialogue.mk t none ip)._is_pointer = none ∧
    (Dialogue.mk t (some "") ip)._is_pointer = none ∧
    ∀ (s : String) (c : Char) (cs : List Char), s.data = c :: cs →
      (Dialogue.mk t (some s) ip)._is_pointer = some (decide (c = '@')) := by
  refine ⟨rfl, rfl, ?_⟩
  intro s c cs hdata
  simp [Dialogue._is_pointer, hdata]

/-- Concrete instances of the pointer-predicate behaviour on `None`,
empty, pointer and non-pointer messages. -/
theorem is_pointer_domain_witness :
    (Dialogue.mk none none none)._is_pointer = none ∧
    (Dialogue.mk none (some "") none)._is_pointer = none ∧
    (Dialogue.mk none (some "@a") none)._is_pointer = some true ∧
    (Dialogue.mk none (some "hi") none)._is_pointer = some false := by
  refine ⟨(is_pointer_domain none none).1, (is_pointer_domain none none).2.1, ?_, ?_⟩
  · have h := (is_pointer_domain none none).2.2 "@a" '@' ['a'] rfl
    simpa using h
  · have h := (is_pointer_domain none none).2.2 "hi" 'h' ['i'] rfl
    simpa using h

/-- Incrementing one entry's counter leaves the message column of the
pool unchanged. -/
theorem map_message_set_inc (pool : List _CountedMessage) (j : Nat)
    (hj : j < pool.length) :
    (pool.set j ⟨(pool.get ⟨j, hj⟩).occurrences + 1,
        (pool.get ⟨j, hj⟩).message⟩).map _CountedMessage.message =
      pool.map _CountedMessage.message := by
  apply List.ext_getElem
  · simp
  · intro i h1 h2
    simp only [List.getElem_map]
    by_cases hij : i = j
    · subst hij
      simp [List.getElem_set_self, List.get_eq_getElem]
    · simp [List.getElem_set_ne (fun hh => hij hh.symm)]

/-- Any query — successful or failing — leaves the key sequences of all
four context mappings unchanged. -/
theorem query_keys_preserved (g : DialogueGenerator) (biome : String) (c : Context)
    (r : Except DialogueError String) (g' : DialogueGenerator)
    (h : get_random_message g biome c = (r, g')) (c' : Context) :
    dictKeys (ctxDict g' c') = dictKeys (ctxDict g c') := by
  cases hd : dictGet (ctxDict g c) biome with
  | none =>
    simp only [get_random_message, hd, Prod.mk.injEq] at h
    rw [← h.2]
  | some pool =>
    cases hh : _get_random_message_helper pool with
    | none =>
      simp only [get_random_message, hd, hh, Prod.mk.injEq] at h
      rw [← h.2]
    | some pr =>
      obtain ⟨s, pool2⟩ := pr
      simp only [get_random_message, hd, hh, Prod.mk.injEq] at h
      rw [← h.2]
      by_cases hc : c' = c
      · subst hc
        rw [ctxDict_setCtxDict_self, dictKeys_dictInsert,
          if_pos (mem_dictKeys_of_dictGet _ _ _ hd)]
      · rw [ctxDict_setCtxDict_ne _ _ _ _ hc]

/-- A data row with fewer than 4 columns makes the row loop of
`_read_dialogue` raise `IndexError`. -/
theorem readRows_short_row (body : List (List String)) (r : List String)
    (hmem : r ∈ body) (hshort : r.length < 4) :
    readRows body = Except.error LoadError.indexError := by
  induction body with
  | nil => simp at hmem
  | cons row rest ih =>
    rcases List.mem_cons.mp hmem with hr | hr
    · subst hr
      have h3 : r[3]? = none := by
        rw [List.getElem?_eq_none_iff]
        omega
      cases h0 : (r[0]? : Option String) <;> cases h1 : (r[1]? : Option String) <;>
        cases h2 : (r[2]? : Option String) <;> simp [readRows, h0, h1, h2, h3]
    · have hrec := ih hr
      cases h0 : (row[0]? : Option String) <;> cases h1 : (row[1]? : Option String) <;>
        cases h2 : (row[2]? : Option String) <;> cases h3 : (row[3]? : Option String) <;>
        simp [readRows, h0, h1, h2, h3, hrec]

/-- Wrapping each dict value with `_get_initial_messages` (as `__init__`
does) keeps the key sequence. -/
theorem dictKeys_map_values (d : List (String × List String)) :
    dictKeys (d.map (fun p => (p.1, _get_initial_messages p.2))) = dictKeys d := by
  simp only [dictKeys, List.map_map]
  apply List.map_congr_left
  intro p _
  rfl

/-- The loader loop inserts every stem into all four dicts, so equal key
sequences on entry give equal key sequences on exit. -/
theorem loadAcc_keys (files : List SourceFile)
    (d0 d1 d2 d3 e0 e1 e2 e3 : List (String × List String))
    (h : loadAcc files d0 d1 d2 d3 = Except.ok (e0, e1, e2, e3))
    (h1 : dictKeys d1 = dictKeys d0) (h2 : dictKeys d2 = dictKeys d0)
    (h3 : dictKeys d3 = dictKeys d0) :
    dictKeys e1 = dictKeys e0 ∧ dictKeys e2 = dictKeys e0 ∧ dictKeys e3 = dictKeys e0 := by
  induction files generalizing d0 d1 d2 d3 with
  | nil =>
    simp only [loadAcc, Except.ok.injEq, Prod.mk.injEq] at h
    obtain ⟨he0, he1, he2, he3⟩ := h
    subst he0; subst he1; subst he2; subst he3
    exact ⟨h1, h2, h3⟩
  | cons f rest ih =>
    cases hr : _read_dialogue f.rows with
    | error e => simp [loadAcc, hr] at h
    | ok ls =>
      obtain ⟨l0, l1, l2, l3⟩ := ls
      simp only [loadAcc, hr] at h
      refine ih _ _ _ _ h ?_ ?_ ?_ <;> rw [dictKeys_dictInsert, dictKeys_dictInsert]
      · rw [h1]
      · rw [h2]
      · rw [h3]

/-- **C2** (Deterministic first-minimum tie-break and cycling): the
helper always selects the first stored entry attaining the minimum
occurrences value — every earlier entry has a strictly larger count, so
when several entries tie at the minimum the first in loader row order
wins; consequently, on a freshly loaded two-entry `"cave"` pool with
entry texts `e1` then `e2`, three sequential queries return exactly
`e1, e2, e1`. -/
theorem tie_break_and_cycling :
    (∀ pool : List _CountedMessage, pool ≠ [] →
      ∃ j, ∃ hj : j < pool.length,
        _get_random_message_helper pool =
          some ((pool.get ⟨j, hj⟩).message,
            pool.set j ⟨(pool.get ⟨j, hj⟩).occurrences + 1, (pool.get ⟨j, hj⟩).message⟩) ∧
        (∀ i, ∀ hi : i < pool.length,
          (pool.get ⟨j, hj⟩).occurrences ≤ (pool.get ⟨i, hi⟩).occurrences) ∧
        (∀ i, i < j → ∀ hi : i < pool.length,
          (pool.get ⟨j, hj⟩).occurrences < (pool.get ⟨i, hi⟩).occurrences)) ∧
    (∀ (header : List String) (e1 i1 p1 x1 e2 i2 p2 x2 : String),
      ∃ g g1 g2 : DialogueGenerator,
        load_dialogue_generator
          [⟨"cave", [header, [e1, i1, p1, x1], [e2, i2, p2, x2]]⟩] = Except.ok g ∧
        get_random_message g "cave" Context.ENTER = (Except.ok e1, g1) ∧
        get_random_message g1 "cave" Context.ENTER = (Except.ok e2, g2) ∧
        (get_random_message g2 "cave" Context.ENTER).1 = Except.ok e1) := by
  constructor
  · exact helper_spec
  · intro header e1 i1 p1 x1 e2 i2 p2 x2
    exact ⟨⟨[("cave", [⟨0, e1⟩, ⟨0, e2⟩])], [("cave", [⟨0, i1⟩, ⟨0, i2⟩])],
        [("cave", [⟨0, p1⟩, ⟨0, p2⟩])], [("cave", [⟨0, x1⟩, ⟨0, x2⟩])]⟩,
      ⟨[("cave", [⟨1, e1⟩, ⟨0, e2⟩])], [("cave", [⟨0, i1⟩, ⟨0, i2⟩])],
        [("cave", [⟨0, p1⟩, ⟨0, p2⟩])], [("cave", [⟨0, x1⟩, ⟨0, x2⟩])]⟩,
      ⟨[("cave", [⟨1, e1⟩, ⟨1, e2⟩])], [("cave", [⟨0, i1⟩, ⟨0, i2⟩])],
        [("cave", [⟨0, p1⟩, ⟨0, p2⟩])], [("cave", [⟨0, x1⟩, ⟨0, x2⟩])]⟩,
      rfl, rfl, rfl, rfl⟩

/-- Concrete instance of the tie-break rule: on the pool
`[⟨0, "a"⟩, ⟨0, "b"⟩]` (a two-way tie) the first entry is selected. -/
theorem tie_break_and_cycling_witness :
    ∃ j, ∃ hj : j < ([⟨0, "a"⟩, ⟨0, "b"⟩] : List _CountedMessage).length,
      _get_random_message_helper [⟨0, "a"⟩, ⟨0, "b"⟩] =
        some ((([⟨0, "a"⟩, ⟨0, "b"⟩] : List _CountedMessage).get ⟨j, hj⟩).message,
          ([⟨0, "a"⟩, ⟨0, "b"⟩] : List _CountedMessage).set j
            ⟨(([⟨0, "a"⟩, ⟨0, "b"⟩] : List _CountedMessage).get ⟨j, hj⟩).occurrences + 1,
              (([⟨0, "a"⟩, ⟨0, "b"⟩] : List _CountedMessage).get ⟨j, hj⟩).message⟩) ∧
      (∀ i, ∀ hi : i < ([⟨0, "a"⟩, ⟨0, "b"⟩] : List _CountedMessage).length,
        (([⟨0, "a"⟩, ⟨0, "b"⟩] : List _CountedMessage).get ⟨j, hj⟩).occurrences ≤
          (([⟨0, "a"⟩, ⟨0, "b"⟩] : List _CountedMessage).get ⟨i, hi⟩).occurrences) ∧
      (∀ i, i < j → ∀ hi : i < ([⟨0, "a"⟩, ⟨0, "b"⟩] : List _CountedMessage).length,
        (([⟨0, "a"⟩, ⟨0, "b"⟩] : List _CountedMessage).get ⟨j, hj⟩).occurrences <
          (([⟨0, "a"⟩, ⟨0, "b"⟩] : List _CountedMessage).get ⟨i, hi⟩).occurrences) :=
  tie_break_and_cycling.1 [⟨0, "a"⟩, ⟨0, "b"⟩] (by decide)

/-- **C6** (Loader completeness and order preservation): loading a single
source with stem `"forest"`, a header row and exactly 3 data rows of at
least 4 columns yields a catalog where `"forest"` is a key of all four
context mappings, each mapped to exactly the 3 column values of its
context in original row order, every entry with occurrences 0. -/
theorem loader_completeness (header t1 t2 t3 : List String)
    (a1 b1 c1 d1 a2 b2 c2 d2 a3 b3 c3 d3 : String) :
    ∃ g : DialogueGenerator,
      load_dialogue_generator
        [⟨"forest", [header, a1 :: b1 :: c1 :: d1 :: t1, a2 :: b2 :: c2 :: d2 :: t2,
          a3 :: b3 :: c3 :: d3 :: t3]⟩] = Except.ok g ∧
      dictGet g._entry "forest" = some [⟨0, a1⟩, ⟨0, a2⟩, ⟨0, a3⟩] ∧
      dictGet g._investigate "forest" = some [⟨0, b1⟩, ⟨0, b2⟩, ⟨0, b3⟩] ∧
      dictGet g._preview "forest" = some [⟨0, c1⟩, ⟨0, c2⟩, ⟨0, c3⟩] ∧
      dictGet g._exit "forest" = some [⟨0, d1⟩, ⟨0, d2⟩, ⟨0, d3⟩] :=
  ⟨_, rfl, rfl, rfl, rfl, rfl⟩

/-- **C3 counterexample**: loading a source with only a header row does
NOT raise a malformed-source error — it succeeds and constructs a
generator whose per-context lists for that location are empty, contrary
to the claim that a zero-data-row source fails at load time. -/
theorem header_only_source_loads :
    load_dialogue_generator [⟨"forest", [["col0", "col1", "col2", "col3"]]⟩] =
      Except.ok ⟨[("forest", [])], [("forest", [])], [("forest", [])], [("forest", [])]⟩ :=
  rfl

/-- **C3 amended** (Fail-fast loading, amended): a source with a data row
of fewer than 4 columns raises `IndexError` at load time, and a source
with no rows at all raises `StopIteration`; but a source with only a
header row (zero data rows) loads successfully into empty per-context
lists, the emptiness surfacing only as an empty-pool error when that
location is queried. -/
theorem fail_fast_loading_amended :
    (∀ (stem : String) (header : List String) (body : List (List String))
      (r : List String), r ∈ body → r.length < 4 →
      load_dialogue_generator [⟨stem, header :: body⟩] =
        Except.error LoadError.indexError) ∧
    (∀ stem : String,
      load_dialogue_generator [⟨stem, []⟩] = Except.error LoadError.stopIteration) ∧
    (∀ (stem : String) (header : List String),
      load_dialogue_generator [⟨stem, [header]⟩] =
        Except.ok ⟨[(stem, [])], [(stem, [])], [(stem, [])], [(stem, [])]⟩ ∧
      ∀ c : Context,
        get_random_message ⟨[(stem, [])], [(stem, [])], [(stem, [])], [(stem, [])]⟩ stem c =
          (Except.error DialogueError.emptyPool,
            ⟨[(stem, [])], [(stem, [])], [(stem, [])], [(stem, [])]⟩)) := by
  refine ⟨?_, ?_, ?_⟩
  · intro stem header body r hmem hshort
    have hrr := readRows_short_row body r hmem hshort
    simp [load_dialogue_generator, loadAcc, _read_dialogue, hrr]
  · intro stem
    rfl
  · intro stem header
    constructor
    · rfl
    · intro c
      cases c <;>
        simp [get_random_message, ctxDict, dictGet, _get_random_message_helper, setCtxDict]

/-- Concrete instance of the amended fail-fast behaviour: a two-column
data row makes loading fail with `IndexError`. -/
theorem fail_fast_loading_amended_witness :
    load_dialogue_generator [⟨"cave", [["h0", "h1", "h2", "h3"], ["a", "b"]]⟩] =
      Except.error LoadError.indexError :=
  fail_fast_loading_amended.1 "cave" ["h0", "h1", "h2", "h3"] [["a", "b"]] ["a", "b"]
    (by simp) (by decide)

/-- **C7** (Mutation isolation): a successful query changes nothing but
the selected entry's counter — the other three context mappings are
identical, lookups at every other location in the queried mapping are
identical, the key sequences of all four mappings are unchanged, and
within the queried pool every non-selected entry is unchanged and the
message column is preserved. -/
theorem mutation_isolation (g : DialogueGenerator) (biome : String) (c : Context)
    (s : String) (g' : DialogueGenerator)
    (h : get_random_message g biome c = (Except.ok s, g')) :
    (∀ c', c' ≠ c → ctxDict g' c' = ctxDict g c') ∧
    (∀ b, b ≠ biome → dictGet (ctxDict g' c) b = dictGet (ctxDict g c) b) ∧
    (∀ c', dictKeys (ctxDict g' c') = dictKeys (ctxDict g c')) ∧
    (∃ pool pool' : List _CountedMessage,
      dictGet (ctxDict g c) biome = some pool ∧
      dictGet (ctxDict g' c) biome = some pool' ∧
      pool'.length = pool.length ∧
      pool'.map _CountedMessage.message = pool.map _CountedMessage.message ∧
      ∃ j, j < pool.length ∧
        ∀ i, i ≠ j → ∀ hi : i < pool.length, ∀ hi' : i < pool'.length,
          pool'.get ⟨i, hi'⟩ = pool.get ⟨i, hi⟩) := by
  have hkeys := query_keys_preserved g biome c (Except.ok s) g' h
  cases hd : dictGet (ctxDict g c) biome with
  | none =>
    simp only [get_random_message, hd, Prod.mk.injEq] at h
    exact absurd h.1 (by simp)
  | some pool =>
    cases hh : _get_random_message_helper pool with
    | none =>
      simp only [get_random_message, hd, hh, Prod.mk.injEq] at h
      exact absurd h.1 (by simp)
    | some pr =>
      obtain ⟨s0, pool2⟩ := pr
      simp only [get_random_message, hd, hh, Prod.mk.injEq] at h
      obtain ⟨hs, hg⟩ := h
      obtain ⟨j, hj, hsel, hset⟩ := helper_some_spec pool pool2 s0 hh
      subst hg
      subst hset
      refine ⟨?_, ?_, hkeys,
        pool, pool.set j ⟨(pool.get ⟨j, hj⟩).occurrences + 1, (pool.get ⟨j, hj⟩).message⟩,
        rfl, ?_, List.length_set pool _ _, map_message_set_inc pool j hj, j, hj, ?_⟩
      · intro c' hc'
        exact ctxDict_setCtxDict_ne g c c' _ hc'
      · intro b hb
        rw [ctxDict_setCtxDict_self]
        exact dictGet_dictInsert_ne _ _ _ _ hb
      · rw [ctxDict_setCtxDict_self]
        exact dictGet_dictInsert_self _ _ _
      · intro i hij hi hi'
        simp [List.get_eq_getElem, List.getElem_set_ne (fun hh2 => hij hh2.symm)]

/-- Concrete instance of mutation isolation: querying `("cave", ENTER)`
on a two-location catalog leaves the investigate mapping, the
`"forest"` entry pool and all key sequences unchanged. -/
theorem mutation_isolation_witness :
    ctxDict ⟨[("cave", [⟨1, "m"⟩]), ("forest", [⟨0, "f"⟩])],
        [("cave", []), ("forest", [])], [("cave", []), ("forest", [])],
        [("cave", []), ("forest", [])]⟩ Context.INVESTIGATE =
      ctxDict ⟨[("cave", [⟨0, "m"⟩]), ("forest", [⟨0, "f"⟩])],
        [("cave", []), ("forest", [])], [("cave", []), ("forest", [])],
        [("cave", []), ("forest", [])]⟩ Context.INVESTIGATE ∧
    dictGet (ctxDict ⟨[("cave", [⟨1, "m"⟩]), ("forest", [⟨0, "f"⟩])],
        [("cave", []), ("forest", [])], [("cave", []), ("forest", [])],
        [("cave", []), ("forest", [])]⟩ Context.ENTER) "forest" =
      dictGet (ctxDict ⟨[("cave", [⟨0, "m"⟩]), ("forest", [⟨0, "f"⟩])],
        [("cave", []), ("forest", [])], [("cave", []), ("forest", [])],
        [("cave", []), ("forest", [])]⟩ Context.ENTER) "forest" ∧
    dictKeys (ctxDict ⟨[("cave", [⟨1, "m"⟩]), ("forest", [⟨0, "f"⟩])],
        [("cave", []), ("forest", [])], [("cave", []), ("forest", [])],
        [("cave", []), ("forest", [])]⟩ Context.ENTER) =
      dictKeys (ctxDict ⟨[("cave", [⟨0, "m"⟩]), ("forest", [⟨0, "f"⟩])],
        [("cave", []), ("forest", [])], [("cave", []), ("forest", [])],
        [("cave", []), ("forest", [])]⟩ Context.ENTER) :=
  ⟨(mutation_isolation
      ⟨[("cave", [⟨0, "m"⟩]), ("forest", [⟨0, "f"⟩])],
        [("cave", []), ("forest", [])], [("cave", []), ("forest", [])],
        [("cave", []), ("forest", [])]⟩ "cave" Context.ENTER "m"
      ⟨[("cave", [⟨1, "m"⟩]), ("forest", [⟨0, "f"⟩])],
        [("cave", []), ("forest", [])], [("cave", []), ("forest", [])],
        [("cave", []), ("forest", [])]⟩ rfl).1 Context.INVESTIGATE (by decide),
   (mutation_isolation
      ⟨[("cave", [⟨0, "m"⟩]), ("forest", [⟨0, "f"⟩])],
        [("cave", []), ("forest", [])], [("cave", []), ("forest", [])],
        [("cave", []), ("forest", [])]⟩ "cave" Context.ENTER "m"
      ⟨[("cave", [⟨1, "m"⟩]), ("forest", [⟨0, "f"⟩])],
        [("cave", []), ("forest", [])], [("cave", []), ("forest", [])],
        [("cave", []), ("forest", [])]⟩ rfl).2.1 "forest" (by decide),
   (mutation_isolation
      ⟨[("cave", [⟨0, "m"⟩]), ("forest", [⟨0, "f"⟩])],
        [("cave", []), ("forest", [])], [("cave", []), ("forest", [])],
        [("cave", []), ("forest", [])]⟩ "cave" Context.ENTER "m"
      ⟨[("cave", [⟨1, "m"⟩]), ("forest", [⟨0, "f"⟩])],
        [("cave", []), ("forest", [])], [("cave", []), ("forest", [])],
        [("cave", []), ("forest", [])]⟩ rfl).2.2.1 Context.ENTER⟩

/-- **C8** (Cross-context key invariant): every catalog produced by
`load_dialogue_generator` carries the same key sequence in all four
context mappings — hence a location id is a key of one of the four
mappings iff it is a key of all four — and the property is preserved by
every subsequent query, successful or failing. -/
theorem cross_context_keys :
    (∀ (files : List SourceFile) (g : DialogueGenerator),
      load_dialogue_generator files = Except.ok g →
      SameKeys g ∧
      ∀ b : String,
        (b ∈ dictKeys g._entry ∨ b ∈ dictKeys g._investigate ∨
          b ∈ dictKeys g._preview ∨ b ∈ dictKeys g._exit) ↔
        (b ∈ dictKeys g._entry ∧ b ∈ dictKeys g._investigate ∧
          b ∈ dictKeys g._preview ∧ b ∈ dictKeys g._exit)) ∧
    (∀ g : DialogueGenerator, SameKeys g →
      ∀ (biome : String) (c : Context) (r : Except DialogueError String)
        (g' : DialogueGenerator),
        get_random_message g biome c = (r, g') → SameKeys g') := by
  constructor
  · intro files g h
    cases ha : loadAcc files [] [] [] [] with
    | error e => simp [load_dialogue_generator, ha] at h
    | ok q =>
      obtain ⟨d0, d1, d2, d3⟩ := q
      simp only [load_dialogue_generator, ha, Except.ok.injEq] at h
      subst h
      obtain ⟨k1, k2, k3⟩ := loadAcc_keys files [] [] [] [] d0 d1 d2 d3 ha rfl rfl rfl
      constructor
      · refine ⟨?_, ?_, ?_⟩ <;>
          simp only [SameKeys, ctxDict, DialogueGenerator.init, dictKeys_map_values]
        · exact k1
        · exact k2
        · exact k3
      · intro b
        simp only [DialogueGenerator.init, dictKeys_map_values, k1, k2, k3]
        tauto
  · intro g hsk biome c r g' h
    have hkeys := query_keys_preserved g biome c r g' h
    refine ⟨?_, ?_, ?_⟩
    · rw [hkeys Context.INVESTIGATE, hkeys Context.ENTER]
      exact hsk.1
    · rw [hkeys Context.PREVIEW, hkeys Context.ENTER]
      exact hsk.2.1
    · rw [hkeys Context.EXIT, hkeys Context.ENTER]
      exact hsk.2.2

/-- Concrete instance of the cross-context key invariant: a loaded
one-location catalog has equal keys in all four mappings, before and
after a query. -/
theorem cross_context_keys_witness :
    SameKeys ⟨[("cave", [⟨0, "e"⟩])], [("cave", [⟨0, "i"⟩])],
      [("cave", [⟨0, "p"⟩])], [("cave", [⟨0, "x"⟩])]⟩ ∧
    SameKeys ⟨[("cave", [⟨1, "e"⟩])], [("cave", [⟨0, "i"⟩])],
      [("cave", [⟨0, "p"⟩])], [("cave", [⟨0, "x"⟩])]⟩ :=
  ⟨(cross_context_keys.1 [⟨"cave", [["h0", "h1", "h2", "h3"], ["e", "i", "p", "x"]]⟩]
      ⟨[("cave", [⟨0, "e"⟩])], [("cave", [⟨0, "i"⟩])],
        [("cave", [⟨0, "p"⟩])], [("cave", [⟨0, "x"⟩])]⟩ rfl).1,
   cross_context_keys.2
      ⟨[("cave", [⟨0, "e"⟩])], [("cave", [⟨0, "i"⟩])],
        [("cave", [⟨0, "p"⟩])], [("cave", [⟨0, "x"⟩])]⟩
      (cross_context_keys.1 [⟨"cave", [["h0", "h1", "h2", "h3"], ["e", "i", "p", "x"]]⟩]
        ⟨[("cave", [⟨0, "e"⟩])], [("cave", [⟨0, "i"⟩])],
          [("cave", [⟨0, "p"⟩])], [("cave", [⟨0, "x"⟩])]⟩ rfl).1
      "cave" Context.ENTER (Except.ok "e")
      ⟨[("cave", [⟨1, "e"⟩])], [("cave", [⟨0, "i"⟩])],
        [("cave", [⟨0, "p"⟩])], [("cave", [⟨0, "x"⟩])]⟩ rfl⟩

end CatsCradle
